import Mathlib

/-!
# A Likely Story — publishing pipeline, shallow embedding

Shallow embedding of the two Python sources of the repository
(`scripts/publish.py` and `generate_chapter.py`) together with proofs of the
specified properties of the calendar mapper and the publication state
reconciler.

Conventions of the embedding:
* Python `datetime.date` values are `Date` records (year, month, day); the
  library's day arithmetic is embedded by `addDays` (successor-day iteration)
  and `dateSub` (difference of proleptic-Gregorian ordinals, Python's
  floor-division rule for the leap-year terms).
* Python strings are `String`/`List Char`; `len`, slicing and `join` are the
  corresponding list operations on the decoded characters; the whitespace
  class is the ASCII part of Python's.
* Python dicts keyed by `str(day_num)` are association lists in insertion
  order, keyed by the day number itself (the pipeline only ever writes
  canonical `str(int)` keys).
* Python's stable `sorted` builtin is embedded by `List.insertionSort`
  (a stable sort) on the corresponding relation.
* A few functions that the regex engine implements by backtracking are
  written with an explicit fuel argument so that they are structurally
  recursive; the wrappers instantiate the fuel with the input length, which
  always suffices because every step consumes at least one character.
-/

set_option maxRecDepth 100000

/-! ## Calendar mapper (`publish.py` and `generate_chapter.py`) -/

/-- A calendar date, as in Python's `datetime.date`. -/
structure Date where
  year : Int
  month : Nat
  day : Nat
deriving DecidableEq, Repr

/-- Gregorian leap-year rule used by Python's `datetime`. -/
def isLeap (y : Int) : Bool :=
  y % 4 == 0 && (y % 100 != 0 || y % 400 == 0)

/-- Number of days of month `m` of year `y` (Gregorian calendar). -/
def daysInMonth (y : Int) (m : Nat) : Nat :=
  if m = 2 then (if isLeap y then 29 else 28)
  else if m = 4 ∨ m = 6 ∨ m = 9 ∨ m = 11 then 30
  else 31

/-- The calendar successor of a date. -/
def nextDay (d : Date) : Date :=
  if d.day < daysInMonth d.year d.month then ⟨d.year, d.month, d.day + 1⟩
  else if d.month < 12 then ⟨d.year, d.month + 1, 1⟩
  else ⟨d.year + 1, 1, 1⟩

/-- `d + timedelta(days=k)` for `k ≥ 0`: iterated calendar successor. -/
def addDays (d : Date) : Nat → Date
  | 0 => d
  | k + 1 => nextDay (addDays d k)

/-- Days of year `y` that precede month `m`. -/
def daysBeforeMonth (y : Int) : Nat → Nat
  | 0 => 0
  | 1 => 0
  | m + 1 => daysBeforeMonth y m + daysInMonth y m

/-- One-based day-of-year of a date. -/
def dayOfYear (d : Date) : Nat :=
  daysBeforeMonth d.year d.month + d.day

/-- Proleptic-Gregorian ordinal of a date (as in `datetime.date.toordinal`);
the leap-count terms use floor division, Python's `//`. -/
def toOrdinal (d : Date) : Int :=
  365 * (d.year - 1) + (d.year - 1).fdiv 4 - (d.year - 1).fdiv 100
    + (d.year - 1).fdiv 400 + dayOfYear d

/-- `(a - b).days` for Python dates: difference of ordinals. -/
def dateSub (a b : Date) : Int :=
  toOrdinal a - toOrdinal b

/-- `START_DATE = date(2026, 1, 1)` (both sources). -/
def START_DATE : Date := ⟨2026, 1, 1⟩

/-- `publish.day_number_for_date`: `None` unless the year is 2026 and the
1-based offset from `START_DATE` lies in `[1, 365]`. -/
def day_number_for_date (d : Date) : Option Int :=
  if d.year ≠ 2026 then none
  else
    let n : Int := dateSub d START_DATE + 1
    if 1 ≤ n ∧ n ≤ 365 then some n else none

/-- `publish.date_for_day_number`: `START_DATE + timedelta(days=n-1)`
(the spec restricts callers to the domain `[1, 365]`). -/
def date_for_day_number (n : Nat) : Date :=
  addDays START_DATE (n - 1)

/-- `generate_chapter.get_day_number_for_date`. -/
def get_day_number_for_date (target_date : Date) : Option Int :=
  if target_date.year ≠ 2026 then none
  else
    let day_num : Int := dateSub target_date START_DATE + 1
    if 1 ≤ day_num ∧ day_num ≤ 365 then some day_num else none

/-- `generate_chapter.get_date_for_day`. -/
def get_date_for_day (day_num : Nat) : Date :=
  addDays START_DATE (day_num - 1)

/-! ## Frontmatter and title derivation (`publish.py`) -/

/-- A value of the parsed YAML frontmatter mapping, to the extent the pipeline
inspects it: either a string or some non-string value (`isinstance(…, str)`
is the only type test performed). -/
inductive YamlValue
  | str (s : String)
  | nonStr
deriving DecidableEq

/-- The mapping returned by `yaml.safe_load` on the frontmatter block. -/
abbrev Frontmatter := List (String × YamlValue)

/-- `fm.get(key)` on the parsed frontmatter. -/
def fmGet (fm : Frontmatter) (k : String) : Option YamlValue :=
  List.lookup k fm

/-- Python's whitespace class for `str.strip` / `str.split` / `\s`
(the ASCII part, which is all the pipeline's inputs use). -/
def isPyWs (c : Char) : Bool :=
  c = ' ' || c = '\t' || c = '\n' || c = '\x0d' || c = '\x0b' || c = '\x0c'

/-- Python `str.strip()` on decoded characters. -/
def pyStripL (l : List Char) : List Char :=
  ((l.dropWhile isPyWs).reverse.dropWhile isPyWs).reverse

/-- Python `str.strip()`. -/
def pyStrip (s : String) : String :=
  ⟨pyStripL s.data⟩

/-- Cons a character onto the first piece of a split result. -/
def consHead (c : Char) : List (List Char) → List (List Char)
  | [] => [[c]]
  | p :: ps => (c :: p) :: ps

/-- Split a character list on `\n`, keeping empty pieces. -/
def splitOnNl : List Char → List (List Char)
  | [] => [[]]
  | c :: cs => if c = '\n' then [] :: splitOnNl cs else consHead c (splitOnNl cs)

/-- Python `str.splitlines()` restricted to `\n` line terminators: split on
newlines, with no empty trailing piece for a trailing newline. -/
def pySplitlines (s : String) : List (List Char) :=
  let parts := splitOnNl s.data
  if parts.getLast? = some [] then parts.dropLast else parts

/-- The `for line in body_md.splitlines()` loop of `derive_title`: the first
line starting with `#`, with leading `#`s removed (`lstrip("#")`) and
surrounding whitespace stripped. -/
def headingTitle? (body_md : String) : Option String :=
  (pySplitlines body_md).findSome? (fun line =>
    match line with
    | '#' :: _ => some ⟨pyStripL (line.dropWhile (fun c => c = '#'))⟩
    | _ => none)

/-- `publish.derive_title`: a non-blank frontmatter `title` string wins; else
the first markdown heading line; else `Chapter {day_num}`. -/
def derive_title (fm : Frontmatter) (body_md : String) (day_num : Nat) : String :=
  match fmGet fm "title" with
  | some (YamlValue.str t) =>
      if pyStrip t ≠ "" then pyStrip t
      else
        match headingTitle? body_md with
        | some h => h
        | none => "Chapter " ++ toString day_num
  | _ =>
      match headingTitle? body_md with
      | some h => h
      | none => "Chapter " ++ toString day_num

/-! ## Excerpt derivation (`publish.py`)

`derive_excerpt` first applies `re.sub(r"\[(.*?)\]\((.*?)\)", r"\1", …)`
(markdown links collapse to their link text), then removes the characters of
the class `[#*_>` `` ` `` `]`, splits on blank lines (`re.split(r"\n\s*\n",…)`),
and returns the first whitespace-collapsed paragraph of length ≥ 40,
truncated at 200 characters with a `…` marker. -/

/-- Scan for the non-greedy `(.*?)\)` of the link regex: the text up to the
first `)` with no intervening newline (`.` does not match `\n`). -/
def findCloseParen : List Char → Option (List Char)
  | [] => none
  | c :: cs =>
      if c = ')' then some cs
      else if c = '\n' then none
      else findCloseParen cs

/-- Backtracking match of `(.*?)\]\((.*?)\)` directly after an opening `[`:
returns the first capture group and the characters after the match. The first
group grows one character at a time (non-greedy), trying at each `](` whether
a `)` closes the second group before a newline. -/
def matchAfterBracket : List Char → Option (List Char × List Char)
  | [] => none
  | c :: cs =>
      if c = '\n' then none
      else if c = ']' ∧ cs.head? = some '(' then
        match findCloseParen cs.tail with
        | some rest' => some ([], rest')
        | none => Option.map (fun p => (c :: p.1, p.2)) (matchAfterBracket cs)
      else Option.map (fun p => (c :: p.1, p.2)) (matchAfterBracket cs)

/-- Leftmost, repeated `re.sub` of the link pattern, replacing each match by
its first capture group. Structural in the fuel, which the wrapper sets to
the input length (each match consumes at least two characters, each
non-match one). -/
def stripLinksGo : Nat → List Char → List Char
  | _, [] => []
  | 0, l => l
  | fuel + 1, c :: cs =>
      if c = '[' then
        match matchAfterBracket cs with
        | some (g1, r) => g1 ++ stripLinksGo fuel r
        | none => c :: stripLinksGo fuel cs
      else c :: stripLinksGo fuel cs

/-- `re.sub(r"\[(.*?)\]\((.*?)\)", r"\1", text)`. -/
def pyStripLinks (l : List Char) : List Char :=
  stripLinksGo l.length l

/-- The backtick character (written by code so that the markdown marker class
below stays readable). -/
def mdBacktick : Char := Char.ofNat 96

/-- `re.sub(r"[#*_>`]", "", text)`: drop emphasis/heading/quote/code markers. -/
def stripMarkers (l : List Char) : List Char :=
  l.filter (fun c => ¬(c = '#' ∨ c = '*' ∨ c = '_' ∨ c = '>' ∨ c = mdBacktick))

/-- Characters after the last `\n` of a list (used for the backtracked end of
a `\n\s*\n` separator). -/
def afterLastNl (l : List Char) : List Char :=
  (l.reverse.takeWhile (fun c => c ≠ '\n')).reverse

/-- `re.split(r"\n\s*\n", text)`: a separator starts at a `\n` whose maximal
following whitespace run contains another `\n`; the greedy `\s*` consumes the
run up to (and backtracks to) its last `\n`. Structural in the fuel, which
the wrapper sets to the input length. -/
def splitBlankGo : Nat → List Char → List (List Char)
  | _, [] => [[]]
  | 0, l => [l]
  | fuel + 1, c :: cs =>
      if c = '\n' ∧ '\n' ∈ cs.takeWhile isPyWs then
        [] :: splitBlankGo fuel
          (afterLastNl (cs.takeWhile isPyWs) ++ cs.drop (cs.takeWhile isPyWs).length)
      else consHead c (splitBlankGo fuel cs)

/-- `re.split(r"\n\s*\n", text)` on decoded characters. -/
def splitOnBlankLines (l : List Char) : List (List Char) :=
  splitBlankGo l.length l

/-- Python `str.split()` with no separator: maximal non-whitespace tokens.
The accumulator holds the current token reversed. -/
def wsTokensAux : List Char → List Char → List (List Char)
  | acc, [] => if acc = [] then [] else [acc.reverse]
  | acc, c :: cs =>
      if isPyWs c then
        (if acc = [] then wsTokensAux [] cs else acc.reverse :: wsTokensAux [] cs)
      else wsTokensAux (c :: acc) cs

/-- Python `str.split()`. -/
def wsTokens (l : List Char) : List (List Char) :=
  wsTokensAux [] l

/-- `" ".join(tokens)`. -/
def joinSpace (ts : List (List Char)) : List Char :=
  List.intercalate [' '] ts

/-- `" ".join(para.strip().split())`: whitespace-collapsed paragraph text. -/
def normalizePara (p : List Char) : List Char :=
  joinSpace (wsTokens (pyStripL p))

/-- The paragraph list scanned by `derive_excerpt`: body text with links
collapsed and markers removed, split on blank lines. -/
def excerptParas (body_md : String) : List (List Char) :=
  splitOnBlankLines (stripMarkers (pyStripLinks body_md.data))

/-- The `for para in re.split(…)` loop of `derive_excerpt`: the first
paragraph whose collapsed form has length ≥ 40, truncated to 200 characters
with a `…` marker when longer. -/
def firstLongExcerpt : List (List Char) → Option (List Char)
  | [] => none
  | p :: ps =>
      let s := normalizePara p
      if 40 ≤ s.length then
        some (s.take 200 ++ (if 200 < s.length then ['…'] else []))
      else firstLongExcerpt ps

/-- The body-scanning fallback of `derive_excerpt` (empty when no paragraph
qualifies). -/
def excerptFromBody (body_md : String) : String :=
  match firstLongExcerpt (excerptParas body_md) with
  | some s => ⟨s⟩
  | none => ""

/-- `publish.derive_excerpt`: a non-blank frontmatter `excerpt` string wins;
else the first sufficiently long collapsed body paragraph; else `""`. -/
def derive_excerpt (fm : Frontmatter) (body_md : String) : String :=
  match fmGet fm "excerpt" with
  | some (YamlValue.str e) =>
      if pyStrip e ≠ "" then pyStrip e else excerptFromBody body_md
  | _ => excerptFromBody body_md

/-! ## Site constants and the chapter index (`publish.py`) -/

/-- `SITE_TITLE`. -/
def SITE_TITLE : String := "A Likely Story"

/-- `SITE_DESCRIPTION`. -/
def SITE_DESCRIPTION : String :=
  "A 365-chapter story, one for each day of 2026. Written and published by Pipali."

/-- `SITE_URL`. -/
def SITE_URL : String := "https://alikelystory.org"

/-- One value of the `chapters` mapping of `chapters.json`. The records the
pipeline writes always carry these five keys; the defensive `dict.get`
defaults in the regenerators are embedded by reading the (possibly empty)
field. -/
structure RecordInfo where
  title : String
  date : String
  file : String
  excerpt : String
  rfc2822 : String
deriving DecidableEq, Repr

/-- The `chapters` dict: day number → record, in insertion order. -/
abbrev ChapterMap := List (Nat × RecordInfo)

/-- The persisted index object `{"chapters": {...}}`. -/
structure PubIndex where
  chapters : ChapterMap
deriving DecidableEq, Repr

/-- Python dict assignment `d[k] = v` on an insertion-ordered association
list: overwrite in place if the key exists (keeping its position), else
append. -/
def pyDictSet {α β : Type} [DecidableEq α] (l : List (α × β)) (k : α) (v : β) :
    List (α × β) :=
  if l.any (fun p => p.1 = k) then
    l.map (fun p => if p.1 = k then (k, v) else p)
  else l ++ [(k, v)]

/-- `index["chapters"][str(day_num)] = {...}`. -/
def dictInsert (l : ChapterMap) (k : Nat) (v : RecordInfo) : ChapterMap :=
  pyDictSet l k v

/-! ## Feed regeneration (`publish.rebuild_rss`) -/

/-- One step of the chained `str.replace` calls of the local `esc` helper. -/
def replaceChar (pat : Char) (rep : List Char) : List Char → List Char
  | [] => []
  | c :: cs => (if c = pat then rep else [c]) ++ replaceChar pat rep cs

/-- `esc`: `s.replace("&","&amp;").replace("<","&lt;").replace(">","&gt;")
.replace('"',"&quot;")`. -/
def escRss (l : List Char) : List Char :=
  replaceChar '"' "&quot;".data
    (replaceChar '>' "&gt;".data
      (replaceChar '<' "&lt;".data
        (replaceChar '&' "&amp;".data l)))

/-- `esc` on strings. -/
def escStr (s : String) : String := ⟨escRss s.data⟩

/-- The per-character effect of the chained replacements (proved equal to
`escRss` below). -/
def escChar (c : Char) : List Char :=
  if c = '&' then "&amp;".data
  else if c = '<' then "&lt;".data
  else if c = '>' then "&gt;".data
  else if c = '"' then "&quot;".data
  else [c]

/-- Scanner for properly escaped feed text: no raw `<`, `>`, `"`, and every
`&` opens one of the entities `&amp;` `&lt;` `&gt;` `&quot;`. The first
argument is the tail of an entity still expected. -/
def wellEscapedGo : List Char → List Char → Bool
  | _ :: _, [] => false
  | e :: es, c :: cs => if c = e then wellEscapedGo es cs else false
  | [], [] => true
  | [], c :: cs =>
      if c = '<' || c = '>' || c = '"' then false
      else if c = '&' then
        match cs with
        | [] => false
        | c2 :: cs' =>
            if c2 = 'a' then wellEscapedGo ['m', 'p', ';'] cs'
            else if c2 = 'l' then wellEscapedGo ['t', ';'] cs'
            else if c2 = 'g' then wellEscapedGo ['t', ';'] cs'
            else if c2 = 'q' then wellEscapedGo ['u', 'o', 't', ';'] cs'
            else false
      else wellEscapedGo [] cs

/-- Feed text is properly escaped: no raw `<`, `>`, `"`, and every `&` is the
start of an escape entity. -/
def wellEscaped (l : List Char) : Bool := wellEscapedGo [] l

/-- `sorted(chapters.items(), key=lambda x: int(x[0]), reverse=True)`:
descending day number, stably. -/
def descByDay : Nat × RecordInfo → Nat × RecordInfo → Prop :=
  fun a b => b.1 ≤ a.1

instance : DecidableRel descByDay := fun a b => Nat.decLe b.1 a.1

instance : IsTotal (Nat × RecordInfo) descByDay := ⟨fun a b => Nat.le_total b.1 a.1⟩

instance : IsTrans (Nat × RecordInfo) descByDay :=
  ⟨fun _ _ _ h1 h2 => Nat.le_trans h2 h1⟩

/-- The records the feed emits: the 30 latest by day number. -/
def rssSelected (chapters : ChapterMap) : ChapterMap :=
  (List.insertionSort descByDay chapters).take 30

/-- The seven lines of one `<item>` element (conditional lines are the empty
string when omitted, exactly as in the source's list literal). -/
def rssItemLines (day_num : Nat) (info : RecordInfo) : List String :=
  [ "  <item>",
    "    <title>Chapter " ++ toString day_num ++ ": " ++ escStr info.title ++ "</title>",
    "    <link>" ++ escStr (SITE_URL ++ "/chapters/" ++ info.file) ++ "</link>",
    "    <guid isPermaLink=\"true\">" ++ escStr (SITE_URL ++ "/chapters/" ++ info.file) ++ "</guid>",
    (if info.rfc2822 ≠ "" then "    <pubDate>" ++ escStr info.rfc2822 ++ "</pubDate>" else ""),
    (if info.excerpt ≠ "" then "    <description>" ++ escStr info.excerpt ++ "</description>" else ""),
    "  </item>" ]

/-- The rendered `<item>` strings of the feed. -/
def rssItems (chapters : ChapterMap) : List String :=
  (rssSelected chapters).map (fun p => String.intercalate "\n" (rssItemLines p.1 p.2))

/-- `rebuild_rss`: the full text written to `rss.xml`. -/
def rebuild_rss_text (index : PubIndex) : String :=
  String.intercalate "\n"
    [ "<?xml version=\"1.0\" encoding=\"UTF-8\"?>",
      "<rss version=\"2.0\">",
      "<channel>",
      "  <title>" ++ SITE_TITLE ++ "</title>",
      "  <link>" ++ SITE_URL ++ "</link>",
      "  <description>" ++ SITE_DESCRIPTION ++ "</description>",
      "  <language>en</language>",
      String.intercalate "\n" (rssItems index.chapters),
      "</channel>",
      "</rss>",
      "" ]

/-! ## Listing regeneration (`publish.rebuild_chapters_page`) -/

/-- `f"{n:02d}"`. -/
def pad2 (n : Nat) : String :=
  if n < 10 then "0" ++ toString n else toString n

/-- `f"{n:03d}"`. -/
def pad3 (n : Nat) : String :=
  if n < 10 then "00" ++ toString n
  else if n < 100 then "0" ++ toString n
  else toString n

/-- `strftime("%B")`: full month name. -/
def monthName : Nat → String
  | 1 => "January" | 2 => "February" | 3 => "March" | 4 => "April"
  | 5 => "May" | 6 => "June" | 7 => "July" | 8 => "August"
  | 9 => "September" | 10 => "October" | 11 => "November" | 12 => "December"
  | _ => ""

/-- `strftime("%b")`: abbreviated month name. -/
def monthAbbrev : Nat → String
  | 1 => "Jan" | 2 => "Feb" | 3 => "Mar" | 4 => "Apr" | 5 => "May" | 6 => "Jun"
  | 7 => "Jul" | 8 => "Aug" | 9 => "Sep" | 10 => "Oct" | 11 => "Nov" | 12 => "Dec"
  | _ => ""

/-- `strftime("%a")`: abbreviated weekday name, from the proleptic ordinal
(ordinal 1, 0001-01-01, is a Monday). -/
def weekdayAbbrev (d : Date) : String :=
  ["Mon", "Tue", "Wed", "Thu", "Fri", "Sat", "Sun"].getD ((toOrdinal d - 1).emod 7).toNat ""

/-- `strftime("%B %d, %Y")` (the `date` field of an index record). -/
def formatLongDate (d : Date) : String :=
  monthName d.month ++ " " ++ pad2 d.day ++ ", " ++ toString d.year

/-- `strftime("%a, %d %b %Y 06:30:00 GMT")` (the `rfc2822` field). -/
def rfc2822Of (d : Date) : String :=
  weekdayAbbrev d ++ ", " ++ pad2 d.day ++ " " ++ monthAbbrev d.month ++ " "
    ++ toString d.year ++ " 06:30:00 GMT"

/-- `date.isoformat()` for the fixed publication year. -/
def isoFormat (d : Date) : String :=
  toString d.year ++ "-" ++ pad2 d.month ++ "-" ++ pad2 d.day

/-- `month_key = d.strftime("%B %Y")` for a day number. -/
def monthKeyOfDay (day_num : Nat) : String :=
  let d := date_for_day_number day_num
  monthName d.month ++ " " ++ toString d.year

/-- `sorted(chapters.items(), key=lambda x: int(x[0]))`: ascending day
number, stably. -/
def ascByDay : Nat × RecordInfo → Nat × RecordInfo → Prop :=
  fun a b => a.1 ≤ b.1

instance : DecidableRel ascByDay := fun a b => Nat.decLe a.1 b.1

instance : IsTotal (Nat × RecordInfo) ascByDay := ⟨fun a b => Nat.le_total a.1 b.1⟩

instance : IsTrans (Nat × RecordInfo) ascByDay :=
  ⟨fun _ _ _ h1 h2 => Nat.le_trans h1 h2⟩

/-- The ascending traversal of the index that feeds the month grouping. -/
def sortedByDay (chapters : ChapterMap) : ChapterMap :=
  List.insertionSort ascByDay chapters

/-- `months.setdefault(month_key, []).append(item)` over an insertion-ordered
dict: extend the group of `k` in place, else append a new group. -/
def addToMonths (groups : List (String × ChapterMap)) (k : String) (v : Nat × RecordInfo) :
    List (String × ChapterMap) :=
  match groups with
  | [] => [(k, [v])]
  | (k', vs) :: rest =>
      if k' = k then (k', vs ++ [v]) :: rest
      else (k', vs) :: addToMonths rest k v

/-- The `# Group by month` loop of `rebuild_chapters_page`. -/
def monthGroups (chapters : ChapterMap) : List (String × ChapterMap) :=
  (sortedByDay chapters).foldl (fun ms p => addToMonths ms (monthKeyOfDay p.1) p) []

/-- The order in which keys first appear in a traversal (the key order of the
insertion-ordered `months` dict). -/
def keepFirsts (l : List String) : List String :=
  l.foldl (fun acc k => if k ∈ acc then acc else acc ++ [k]) []

/-- One `<li>` line of the listing page. -/
def chapterLi (day_num : Nat) (info : RecordInfo) : String :=
  "\t\t\t\t<li><a href=\"chapters/" ++ info.file ++ "\"><span class=\"chapter-title\">Chapter "
    ++ toString day_num ++ ": " ++ info.title ++ "</span><span class=\"chapter-meta\">"
    ++ info.date ++ "</span></a></li>"

/-- One month `<section>` of the listing page. -/
def monthSection (month : String) (items : ChapterMap) : String :=
  String.intercalate "\n"
    [ "\t\t<section class=\"archive-section\">",
      "\t\t\t<h2>" ++ month ++ "</h2>",
      "\t\t\t<ul class=\"chapter-list\">",
      String.intercalate "\n" (items.map (fun p => chapterLi p.1 p.2)),
      "\t\t\t</ul>",
      "\t\t</section>" ]

/-- The placeholder section used when no chapter is published yet. -/
def emptyPlaceholder : String :=
  "\n\t\t<section class=\"archive-section\">\n\t\t\t<p style=\"text-align: center; color: var(--color-text-muted);\">No chapters published yet. The story begins January 1, 2026.</p>\n\t\t</section>\n"

/-- `chapters_list`: the joined month sections, or the placeholder when the
index holds no records. -/
def chaptersListString (chapters : ChapterMap) : String :=
  let sections := (monthGroups chapters).map (fun g => monthSection g.1 g.2)
  if sections ≠ [] then String.intercalate "\n" sections else emptyPlaceholder

/-- The fixed HTML shell of `chapters.html` around the chapter list (the spec
treats the page templates as out-of-scope glue, so the boilerplate text is
abbreviated; the verified properties only use that the page is a function of
the chapter total and the rendered list). -/
def chaptersPageShell (total : Nat) (chapters_list : String) : String :=
  "<!DOCTYPE html>\n<html lang=\"en\">\n<head>\n\t<title>All Chapters - A Likely Story</title>\n\t<meta name=\"description\" content=\"Browse all "
    ++ toString total
    ++ " published chapters of A Likely Story.\">\n</head>\n<body>\n\t<header>\n\t\t<p class=\"subtitle\">"
    ++ toString total
    ++ " of 365 chapters published</p>\n\t</header>\n\t<main class=\"container\">\n"
    ++ chapters_list
    ++ "\n\t</main>\n</body>\n</html>\n"

/-- `rebuild_chapters_page`: the full text written to `chapters.html`. -/
def rebuild_chapters_page_text (index : PubIndex) : String :=
  chaptersPageShell index.chapters.length (chaptersListString index.chapters)

/-! ## Manuscript lookup (`publish.find_manuscript_for_day`) -/

/-- Python `sep.join(parts)`. -/
def pyJoin (sep : String) : List String → String
  | [] => ""
  | [x] => x
  | x :: xs => x ++ sep ++ pyJoin sep xs

/-- The manuscript directory: file name under `manuscript/` → parsed content
(frontmatter mapping and body text; YAML/frontmatter parsing is an
out-of-scope external collaborator per the spec, so sources are stored in
parsed form). -/
abbrev ManuscriptStore := List (String × (Frontmatter × String))

/-- The candidate source file names, in probe order: ISO date, zero-padded
day, bare day. -/
def manuscriptCandidates (day_num : Nat) : List String :=
  let d := date_for_day_number day_num
  [isoFormat d ++ ".md", pad3 day_num ++ ".md", toString day_num ++ ".md"]

/-- The `for p in candidates: if p.exists(): return p` loop. -/
def probeCandidates (files : ManuscriptStore) :
    List String → Option (String × (Frontmatter × String))
  | [] => none
  | c :: cs =>
      match files.lookup c with
      | some content => some (c, content)
      | none => probeCandidates files cs

/-- The `FileNotFoundError` message, listing every candidate path relative to
the project directory. -/
def manuscriptNotFoundMsg (day_num : Nat) : String :=
  "No manuscript found for day " ++ toString day_num ++ ". Expected one of: "
    ++ pyJoin ", " ((manuscriptCandidates day_num).map (fun c => "manuscript/" ++ c))

/-- `publish.find_manuscript_for_day`: the first existing candidate, else the
`FileNotFoundError` with all candidates listed. -/
def find_manuscript_for_day (files : ManuscriptStore) (day_num : Nat) :
    Except String (String × (Frontmatter × String)) :=
  match probeCandidates files (manuscriptCandidates day_num) with
  | some r => Except.ok r
  | none => Except.error (manuscriptNotFoundMsg day_num)

/-! ## Chapter rendering and publishing (`publish.publish`) -/

/-- The `Chapter` dataclass (the raw markdown source is represented by its
parsed form, consistently with `ManuscriptStore`). -/
structure Chapter where
  day_num : Nat
  chapter_date : Date
  title : String
  excerpt : String
  markdown_source : Frontmatter × String
  html_body : String
deriving DecidableEq

/-- Modelled from the spec: markdown→HTML conversion is an out-of-scope
external collaborator (spec §1), missing from the sources as an algorithm;
it is embedded as a deterministic function of the body text, which is all
the verified properties use. -/
def markdown_to_html (body_md : String) : String := body_md

/-- `chapter_paths`: the generated chapter file name `NNN.html`. -/
def chapter_filename (day_num : Nat) : String := pad3 day_num ++ ".html"

/-- The three-tab indentation of the body in `render_chapter_html`. -/
def indentBody (html_body : String) : String :=
  String.intercalate "\n"
    ((pySplitlines (pyStrip html_body)).map (fun ln => "\t\t\t" ++ String.mk ln))

/-- Modelled from the spec: the chapter page template
(`templates/chapter_template.html`) is repo content not under the sources;
the shell is abbreviated but substitutes exactly the fields of the source's
`template.format(...)` call. -/
def chapterPageShell (num : Nat) (title date_formatted content_html prev_link
    next_link prev_class next_class : String) : String :=
  "<!DOCTYPE html>\n<title>" ++ title ++ " - A Likely Story</title>\n<p class=\"chapter-number\">Chapter "
    ++ toString num ++ " of 365</p>\n<h1>" ++ title ++ "</h1>\n<p class=\"chapter-date\">"
    ++ date_formatted ++ "</p>\n<div class=\"chapter-content\">\n" ++ content_html
    ++ "\n</div>\n<a href=\"" ++ prev_link ++ "\" class=\"" ++ prev_class
    ++ "\">Previous</a>\n<a href=\"" ++ next_link ++ "\" class=\"" ++ next_class
    ++ "\">Next</a>\n"

/-- `publish.render_chapter_html`: navigation links disabled at the range
boundaries, zero-padded adjacent day numbers otherwise. -/
def render_chapter_html (ch : Chapter) : String :=
  let prev_link := if ch.day_num > 1 then pad3 (ch.day_num - 1) ++ ".html" else "#"
  let next_link := if ch.day_num < 365 then pad3 (ch.day_num + 1) ++ ".html" else "#"
  let prev_class := if ch.day_num > 1 then "" else "disabled"
  let next_class := if ch.day_num < 365 then "" else "disabled"
  chapterPageShell ch.day_num ch.title (formatLongDate ch.chapter_date)
    (indentBody ch.html_body) prev_link next_link prev_class next_class

/-- String-keyed Python dict assignment (generated files by name). -/
def dictInsertS (l : List (String × String)) (k : String) (v : String) :
    List (String × String) :=
  pyDictSet l k v

/-- JSON string escaping for the serialized index (quote and backslash; the
pipeline's metadata contains no control characters). -/
def jsonEscapeChar (c : Char) : List Char :=
  if c = '"' ∨ c = '\\' then ['\\', c] else [c]

/-- A JSON string literal. -/
def jsonStr (s : String) : String :=
  "\"" ++ String.mk (s.data.flatMap jsonEscapeChar) ++ "\""

/-- One record of the serialized index, in the field order `publish` writes. -/
def serializeRecord (p : Nat × RecordInfo) : String :=
  "    " ++ jsonStr (toString p.1) ++ ": \x7b\n      \"title\": " ++ jsonStr p.2.title
    ++ ",\n      \"date\": " ++ jsonStr p.2.date
    ++ ",\n      \"file\": " ++ jsonStr p.2.file
    ++ ",\n      \"excerpt\": " ++ jsonStr p.2.excerpt
    ++ ",\n      \"rfc2822\": " ++ jsonStr p.2.rfc2822
    ++ "\n    \x7d"

/-- `json.dumps(index, indent=2, ensure_ascii=False) + "\n"`, the bytes
`save_index` writes (whitespace of empty collections abbreviated). -/
def serializeIndex (idx : PubIndex) : String :=
  "\x7b\n  \"chapters\": \x7b\n"
    ++ String.intercalate ",\n" (idx.chapters.map serializeRecord)
    ++ "\n  \x7d\n\x7d\n"

/-- The on-disk state `publish` reads and writes: the manuscript directory,
the index (`chapters.json` is represented by its parsed value — per the spec
it round-trips losslessly through load/save, and its bytes are
`serializeIndex`), the generated chapter pages, and the bytes of the listing
page and the feed. -/
structure PubState where
  files : ManuscriptStore
  index : PubIndex
  chapterFiles : List (String × String)
  chaptersPageText : String
  rssText : String
deriving DecidableEq

/-- The bytes of `chapters.json` in a state. -/
def indexFileText (st : PubState) : String := serializeIndex st.index

/-- `publish.publish(day_num, dry_run)`: locate the manuscript, parse, derive
title and excerpt, render; unless dry-run, write the chapter page, merge the
record into the index, persist it, and regenerate the listing page and the
feed from the updated index. Returns the prepared `Chapter`. -/
def publish (st : PubState) (day_num : Nat) (dry_run : Bool) :
    Except String (Chapter × PubState) :=
  match find_manuscript_for_day st.files day_num with
  | Except.error e => Except.error e
  | Except.ok (_, (fm, body_md)) =>
      let title := derive_title fm body_md day_num
      let excerpt := derive_excerpt fm body_md
      let body_html := markdown_to_html body_md
      let ch_date := date_for_day_number day_num
      let date_formatted := formatLongDate ch_date
      let chapter : Chapter := ⟨day_num, ch_date, title, excerpt, (fm, body_md), body_html⟩
      let filename := chapter_filename day_num
      let html := render_chapter_html chapter
      if dry_run then Except.ok (chapter, st)
      else
        let newIndex : PubIndex := ⟨dictInsert st.index.chapters day_num
          ⟨title, date_formatted, filename, excerpt, rfc2822Of ch_date⟩⟩
        Except.ok (chapter,
          { files := st.files
            index := newIndex
            chapterFiles := dictInsertS st.chapterFiles filename html
            chaptersPageText := rebuild_chapters_page_text newIndex
            rssText := rebuild_rss_text newIndex })

/-- The index record `publish` writes for a day (the five fields of the
`index["chapters"][str(day_num)]` assignment). -/
def publishedRecord (day_num : Nat) (fm : Frontmatter) (body_md : String) : RecordInfo :=
  ⟨derive_title fm body_md day_num,
   formatLongDate (date_for_day_number day_num),
   chapter_filename day_num,
   derive_excerpt fm body_md,
   rfc2822Of (date_for_day_number day_num)⟩

/-- The `Chapter` value `publish` returns for a day and manuscript. -/
def preparedChapter (day_num : Nat) (fm : Frontmatter) (body_md : String) : Chapter :=
  ⟨day_num, date_for_day_number day_num, derive_title fm body_md day_num,
   derive_excerpt fm body_md, (fm, body_md), markdown_to_html body_md⟩

/-- The state after a non-dry `publish` of a located manuscript: chapter page
written, record merged into the index, listing page and feed regenerated
from the updated index. -/
def publishedState (st : PubState) (day_num : Nat) (fm : Frontmatter)
    (body_md : String) : PubState :=
  let newIndex : PubIndex :=
    ⟨dictInsert st.index.chapters day_num (publishedRecord day_num fm body_md)⟩
  ⟨st.files, newIndex,
   dictInsertS st.chapterFiles (chapter_filename day_num)
     (render_chapter_html (preparedChapter day_num fm body_md)),
   rebuild_chapters_page_text newIndex,
   rebuild_rss_text newIndex⟩

/-! ## Filesystem write model (atomicity of `save_index`) -/

/-- A filesystem mutation: a file write or an (atomic) rename. -/
inductive FsOp
  | write (path : String) (content : String)
  | rename (src dst : String)
deriving DecidableEq, Repr

/-- `save_index`: one direct `CHAPTERS_JSON.write_text(...)` of the full
serialized index — no temporary file and no rename. -/
def save_index_ops (idx : PubIndex) : List FsOp :=
  [FsOp.write "chapters.json" (serializeIndex idx)]

/-- Apply one completed filesystem operation to a name → bytes mapping. -/
def applyFsOp (fs : List (String × String)) : FsOp → List (String × String)
  | FsOp.write p c => dictInsertS fs p c
  | FsOp.rename src dst =>
      match fs.lookup src with
      | some c => dictInsertS (fs.filter (fun q => q.1 ≠ src)) dst c
      | none => fs

/-- The filesystem after the `k`-th operation of a sequence is interrupted:
earlier operations completed; an interrupted `write` left only its first
`cut` characters; an interrupted `rename` (atomic at the filesystem level)
left nothing. -/
def applyOpsInterrupted (fs : List (String × String)) (ops : List FsOp)
    (k cut : Nat) : List (String × String) :=
  let fs' := (ops.take k).foldl applyFsOp fs
  match ops[k]? with
  | some (FsOp.write p c) => dictInsertS fs' p (String.mk (c.data.take cut))
  | some (FsOp.rename _ _) => fs'
  | none => fs'

/-! ## Concrete fixture used by the publish witnesses -/

/-- A one-manuscript starting state: day 1's source exists under its ISO
name, nothing published yet. -/
def sampleState : PubState :=
  ⟨[("2026-01-01.md", ([], "Hello"))], ⟨[]⟩, [], "", ""⟩

/-- The chapter `publish` prepares from `sampleState` for day 1. -/
def sampleChapter : Chapter :=
  ⟨1, ⟨2026, 1, 1⟩, "Chapter 1", "", ([], "Hello"), "Hello"⟩

/-- The index after publishing day 1 from `sampleState`. -/
def sampleIndex : PubIndex :=
  ⟨[(1, ⟨"Chapter 1", "January 01, 2026", "001.html", "",
      "Thu, 01 Jan 2026 06:30:00 GMT"⟩)]⟩

/-- The state after publishing day 1 from `sampleState`. -/
def sampleState' : PubState :=
  ⟨sampleState.files, sampleIndex,
    [("001.html", render_chapter_html sampleChapter)],
    rebuild_chapters_page_text sampleIndex,
    rebuild_rss_text sampleIndex⟩

/-! # Theorems -/

/-- C1: the calendar mapping round-trips on the valid domain. -/
theorem c1_calendar_round_trip (n : Nat) (h1 : 1 ≤ n) (h2 : n ≤ 365) :
    day_number_for_date (date_for_day_number n) = some (n : Int) := by
  have key : ∀ m : Fin 365,
      day_number_for_date (date_for_day_number (m.1 + 1)) = some ((m.1 : Int) + 1) := by
    decide
  obtain ⟨k, rfl⟩ : ∃ k, n = k + 1 := ⟨n - 1, (Nat.succ_pred_eq_of_pos h1).symm⟩
  have hk : k < 365 := by omega
  have := key ⟨k, hk⟩
  simpa using this

/-- Witness for C1 at a concrete day number. -/
theorem c1_calendar_round_trip_witness :
    day_number_for_date (date_for_day_number 200) = some 200 :=
  c1_calendar_round_trip 200 (by decide) (by decide)

/-- C10: the calendar mappers of `generate_chapter.py` and `scripts/publish.py`
agree: on every date the day-number functions return the same result, and on
every day number in `[1, 365]` the date functions return the same date. -/
theorem c10_calendar_mappers_equivalent :
    (∀ d : Date, get_day_number_for_date d = day_number_for_date d) ∧
    (∀ n : Nat, 1 ≤ n → n ≤ 365 → get_date_for_day n = date_for_day_number n) :=
  ⟨fun _ => rfl, fun _ _ _ => rfl⟩

/-- Witness for C10 at a concrete date and day number. -/
theorem c10_calendar_mappers_equivalent_witness :
    get_day_number_for_date ⟨2026, 3, 14⟩ = day_number_for_date ⟨2026, 3, 14⟩ ∧
    get_date_for_day 73 = date_for_day_number 73 :=
  ⟨c10_calendar_mappers_equivalent.1 ⟨2026, 3, 14⟩,
   c10_calendar_mappers_equivalent.2 73 (by decide) (by decide)⟩

/-- The `Chapter N` fallback title is never the empty string. -/
theorem chapter_fallback_ne_empty (n : Nat) : "Chapter " ++ toString n ≠ "" := by
  intro h
  have h' : ("Chapter " ++ toString n).data = "".data := congrArg String.data h
  rw [String.data_append] at h'
  rcases List.append_eq_nil.mp h' with ⟨h1, _⟩
  exact absurd h1 (by decide)

/-- C4 counterexample: on a body whose only line is the bare heading marker
`#`, `derive_title` returns the empty string, refuting "in every case the
result is non-empty text". -/
theorem c4_counterexample_empty_title :
    derive_title [] "#" 5 = "" := by
  decide

/-- C4 (amended): `derive_title` follows the precedence non-blank frontmatter
title → first heading line of the body → `Chapter N` fallback; the result is
non-empty except when the selected heading line strips to the empty string
(a line of only `#`s and whitespace). -/
theorem c4_derive_title_precedence (fm : Frontmatter) (body : String) (n : Nat) :
    (∀ t, fmGet fm "title" = some (YamlValue.str t) → pyStrip t ≠ "" →
      derive_title fm body n = pyStrip t) ∧
    ((∀ t, fmGet fm "title" = some (YamlValue.str t) → pyStrip t = "") →
      ∀ h, headingTitle? body = some h → derive_title fm body n = h) ∧
    ((∀ t, fmGet fm "title" = some (YamlValue.str t) → pyStrip t = "") →
      headingTitle? body = none →
      derive_title fm body n = "Chapter " ++ toString n) ∧
    (derive_title fm body n = "" → headingTitle? body = some "") := by
  refine ⟨?_, ?_, ?_, ?_⟩
  · intro t ht hne
    unfold derive_title
    rw [ht]
    simp [hne]
  · intro hblank h hh
    unfold derive_title
    cases hfm : fmGet fm "title" with
    | none => simp [hh]
    | some v =>
      cases v with
      | str t =>
        have hb : pyStrip t = "" := hblank t hfm
        simp [hb, hh]
      | nonStr => simp [hh]
  · intro hblank hnone
    unfold derive_title
    cases hfm : fmGet fm "title" with
    | none => simp [hnone]
    | some v =>
      cases v with
      | str t =>
        have hb : pyStrip t = "" := hblank t hfm
        simp [hb, hnone]
      | nonStr => simp [hnone]
  · intro hempty
    unfold derive_title at hempty
    cases hfm : fmGet fm "title" with
    | none =>
      rw [hfm] at hempty
      cases hh : headingTitle? body with
      | none =>
        rw [hh] at hempty
        exact absurd hempty (chapter_fallback_ne_empty n)
      | some h =>
        rw [hh] at hempty
        exact congrArg some hempty
    | some v =>
      rw [hfm] at hempty
      cases v with
      | str t =>
        by_cases htr : pyStrip t = ""
        · simp only [htr, ne_eq, not_true_eq_false, if_false] at hempty
          cases hh : headingTitle? body with
          | none =>
            rw [hh] at hempty
            exact absurd hempty (chapter_fallback_ne_empty n)
          | some h =>
            rw [hh] at hempty
            exact congrArg some hempty
        · simp only [ne_eq, htr, not_false_eq_true, if_true] at hempty
      | nonStr =>
        cases hh : headingTitle? body with
        | none =>
          rw [hh] at hempty
          exact absurd hempty (chapter_fallback_ne_empty n)
        | some h =>
          rw [hh] at hempty
          exact congrArg some hempty

/-- Witness for C4 at concrete inputs: frontmatter title wins over a body
heading. -/
theorem c4_derive_title_witness :
    derive_title [("title", YamlValue.str "Foo")] "# Bar" 3 = "Foo" := by
  have h := (c4_derive_title_precedence [("title", YamlValue.str "Foo")] "# Bar" 3).1
    "Foo" (by decide) (by decide)
  exact h.trans (by decide)

/-- The excerpt loop is the first collapsed paragraph of length ≥ 40,
truncated at 200 characters. -/
theorem firstLongExcerpt_eq_find (ps : List (List Char)) :
    firstLongExcerpt ps =
      ((ps.map normalizePara).find? (fun s => 40 ≤ s.length)).map
        (fun s => s.take 200 ++ (if 200 < s.length then ['…'] else [])) := by
  induction ps with
  | nil => rfl
  | cons p ps ih =>
    by_cases h : 40 ≤ (normalizePara p).length
    · simp [firstLongExcerpt, List.find?_cons_of_pos, h]
    · simp only [firstLongExcerpt, h, if_false, List.map_cons]
      rw [List.find?_cons_of_neg]
      · exact ih
      · simpa using h

/-- C5: `derive_excerpt` prefers a non-blank frontmatter excerpt; otherwise
it returns the first collapsed body paragraph (links collapsed to their text,
markers stripped) of length ≥ 40, truncated to 200 characters plus `…` when
longer; otherwise the empty string. Concretely, a 39-character paragraph
yields `""`, a 40-character paragraph yields itself, and a 250-character
paragraph yields its first 200 characters plus `…`. -/
theorem c5_derive_excerpt_spec (fm : Frontmatter) (body : String) :
    (∀ e, fmGet fm "excerpt" = some (YamlValue.str e) → pyStrip e ≠ "" →
      derive_excerpt fm body = pyStrip e) ∧
    ((∀ e, fmGet fm "excerpt" = some (YamlValue.str e) → pyStrip e = "") →
      derive_excerpt fm body =
        match ((excerptParas body).map normalizePara).find? (fun s => 40 ≤ s.length) with
        | some s => ⟨s.take 200 ++ (if 200 < s.length then ['…'] else [])⟩
        | none => "") ∧
    derive_excerpt [] ⟨List.replicate 39 'a'⟩ = "" ∧
    derive_excerpt [] ⟨List.replicate 40 'a'⟩ = ⟨List.replicate 40 'a'⟩ ∧
    derive_excerpt [] ⟨List.replicate 250 'a'⟩ = ⟨List.replicate 200 'a' ++ ['…']⟩ := by
  refine ⟨?_, ?_, by decide, by decide, by decide⟩
  · intro e he hne
    unfold derive_excerpt
    rw [he]
    simp [hne]
  · intro hblank
    have hbody : derive_excerpt fm body = excerptFromBody body := by
      unfold derive_excerpt
      cases hfm : fmGet fm "excerpt" with
      | none => rfl
      | some v =>
        cases v with
        | str e =>
          have hb : pyStrip e = "" := hblank e hfm
          simp [hb]
        | nonStr => rfl
    rw [hbody]
    unfold excerptFromBody
    rw [firstLongExcerpt_eq_find]
    cases ((excerptParas body).map normalizePara).find? (fun s => 40 ≤ s.length) with
    | none => rfl
    | some s => rfl

/-- Witness for C5 at concrete inputs: a non-blank frontmatter excerpt wins. -/
theorem c5_derive_excerpt_witness :
    derive_excerpt [("excerpt", YamlValue.str " Hi ")] "body" = "Hi" := by
  have h := (c5_derive_excerpt_spec [("excerpt", YamlValue.str " Hi ")] "body").1
    " Hi " (by decide) (by decide)
  exact h.trans (by decide)

/-- `replaceChar` distributes over append. -/
theorem replaceChar_append (p : Char) (r : List Char) (a b : List Char) :
    replaceChar p r (a ++ b) = replaceChar p r a ++ replaceChar p r b := by
  induction a with
  | nil => rfl
  | cons c a ih => simp [replaceChar, ih, List.append_assoc]

/-- The chained replacements act per character. -/
theorem escRss_cons (c : Char) (l : List Char) :
    escRss (c :: l) = escChar c ++ escRss l := by
  by_cases h1 : c = '&'
  · subst h1; rfl
  by_cases h2 : c = '<'
  · subst h2; rfl
  by_cases h3 : c = '>'
  · subst h3; rfl
  by_cases h4 : c = '"'
  · subst h4; rfl
  · simp [escRss, replaceChar, escChar, h1, h2, h3, h4]

/-- The output of `esc` is properly escaped. -/
theorem wellEscaped_escRss (l : List Char) : wellEscaped (escRss l) = true := by
  induction l with
  | nil => rfl
  | cons c l ih =>
    rw [escRss_cons]
    by_cases h1 : c = '&'
    · subst h1
      show wellEscapedGo [] ("&amp;".data ++ escRss l) = true
      exact ih
    by_cases h2 : c = '<'
    · subst h2
      show wellEscapedGo [] ("&lt;".data ++ escRss l) = true
      exact ih
    by_cases h3 : c = '>'
    · subst h3
      show wellEscapedGo [] ("&gt;".data ++ escRss l) = true
      exact ih
    by_cases h4 : c = '"'
    · subst h4
      show wellEscapedGo [] ("&quot;".data ++ escRss l) = true
      exact ih
    · have hc : escChar c = [c] := by simp [escChar, h1, h2, h3, h4]
      rw [hc]
      show wellEscapedGo [] (c :: escRss l) = true
      rw [wellEscapedGo.eq_def]
      simp only [h1, h2, h3, h4, decide_False, Bool.or_false, Bool.false_or,
        if_false, ite_false]
      exact ih

/-- C6: the regenerated feed has at most 30 entries, selected in descending
day-number order; every emitted title and excerpt is escaped (no raw `<`,
`>`, `"`, every `&` opening an entity); the `pubDate` element is present
exactly when the record carries a timestamp and the `description` element
exactly when the excerpt is non-empty. -/
theorem c6_feed_regeneration (index : PubIndex) :
    (rssItems index.chapters).length ≤ 30 ∧
    List.Pairwise descByDay (rssSelected index.chapters) ∧
    (∀ p ∈ rssSelected index.chapters,
      wellEscaped (escStr p.2.title).data = true ∧
      wellEscaped (escStr p.2.excerpt).data = true ∧
      (rssItemLines p.1 p.2)[1]? =
        some ("    <title>Chapter " ++ toString p.1 ++ ": " ++ escStr p.2.title ++ "</title>") ∧
      (rssItemLines p.1 p.2)[4]? =
        some (if p.2.rfc2822 ≠ "" then "    <pubDate>" ++ escStr p.2.rfc2822 ++ "</pubDate>" else "") ∧
      (rssItemLines p.1 p.2)[5]? =
        some (if p.2.excerpt ≠ "" then "    <description>" ++ escStr p.2.excerpt ++ "</description>" else "")) := by
  refine ⟨?_, ?_, ?_⟩
  · calc (rssItems index.chapters).length
        = (rssSelected index.chapters).length := List.length_map _ _
      _ ≤ 30 := List.length_take_le _ _
  · exact List.Pairwise.sublist (List.take_sublist _ _)
      (List.sorted_insertionSort descByDay index.chapters)
  · intro p _
    exact ⟨wellEscaped_escRss _, wellEscaped_escRss _, rfl, rfl, rfl⟩

/-- Witness for C6: the escaping guarantee applied to a concrete index whose
title and excerpt contain every special character. -/
theorem c6_feed_regeneration_witness :
    wellEscaped (escStr "A&B <i>\"q\"</i>").data = true :=
  ((c6_feed_regeneration
      ⟨[(1, ⟨"A&B <i>\"q\"</i>", "January 01, 2026", "001.html", "x<y",
          "Thu, 01 Jan 2026 06:30:00 GMT"⟩)]⟩).2.2
    (1, ⟨"A&B <i>\"q\"</i>", "January 01, 2026", "001.html", "x<y",
        "Thu, 01 Jan 2026 06:30:00 GMT"⟩)
    (by decide)).1

/-- Elements of a month group after `addToMonths` are old elements or the
newly appended one. -/
theorem addToMonths_mem (ms : List (String × ChapterMap)) (k : String)
    (v : Nat × RecordInfo) :
    ∀ g ∈ addToMonths ms k v, ∀ p ∈ g.2, (∃ g' ∈ ms, p ∈ g'.2) ∨ p = v := by
  induction ms with
  | nil =>
    intro g hg p hp
    simp [addToMonths] at hg
    subst hg
    simp at hp
    exact Or.inr hp
  | cons hd tl ih =>
    obtain ⟨k', vs⟩ := hd
    intro g hg p hp
    by_cases hk : k' = k
    · simp [addToMonths, hk] at hg
      rcases hg with hg | hg
      · subst hg
        simp at hp
        rcases hp with hp | hp
        · exact Or.inl ⟨(k', vs), by simp, hp⟩
        · exact Or.inr hp
      · exact Or.inl ⟨g, by simp [hg], hp⟩
    · simp [addToMonths, hk] at hg
      rcases hg with hg | hg
      · subst hg
        exact Or.inl ⟨(k', vs), by simp, hp⟩
      · rcases ih g hg p hp with ⟨g', hg', hp'⟩ | hp'
        · exact Or.inl ⟨g', by simp [hg'], hp'⟩
        · exact Or.inr hp'

/-- `addToMonths` keeps every group key-consistent. -/
theorem addToMonths_consistent (ms : List (String × ChapterMap)) (k : String)
    (v : Nat × RecordInfo) (hv : monthKeyOfDay v.1 = k)
    (h : ∀ g ∈ ms, ∀ p ∈ g.2, monthKeyOfDay p.1 = g.1) :
    ∀ g ∈ addToMonths ms k v, ∀ p ∈ g.2, monthKeyOfDay p.1 = g.1 := by
  induction ms with
  | nil =>
    intro g hg p hp
    simp [addToMonths] at hg
    subst hg
    simp at hp
    simpa [hp] using hv
  | cons hd tl ih =>
    obtain ⟨k', vs⟩ := hd
    intro g hg p hp
    by_cases hk : k' = k
    · have hred : addToMonths ((k', vs) :: tl) k v = (k', vs ++ [v]) :: tl := by
        simp [addToMonths, hk]
      rw [hred] at hg
      rcases List.mem_cons.mp hg with hg | hg
      · subst hg
        rcases List.mem_append.mp hp with hp | hp
        · exact h (k', vs) (by simp) p hp
        · simp at hp
          subst hp
          rw [hk]
          exact hv
      · exact h g (by simp [hg]) p hp
    · simp [addToMonths, hk] at hg
      rcases hg with hg | hg
      · subst hg
        exact h (k', vs) (by simp) p hp
      · exact ih (fun g' hg' => h g' (by simp [hg'])) g hg p hp

/-- `addToMonths` keeps every group sorted when the appended element is an
upper bound of the existing group contents. -/
theorem addToMonths_sorted (ms : List (String × ChapterMap)) (k : String)
    (v : Nat × RecordInfo)
    (hs : ∀ g ∈ ms, List.Pairwise ascByDay g.2)
    (hub : ∀ g ∈ ms, ∀ p ∈ g.2, ascByDay p v) :
    ∀ g ∈ addToMonths ms k v, List.Pairwise ascByDay g.2 := by
  induction ms with
  | nil =>
    intro g hg
    simp [addToMonths] at hg
    subst hg
    simp
  | cons hd tl ih =>
    obtain ⟨k', vs⟩ := hd
    intro g hg
    by_cases hk : k' = k
    · simp [addToMonths, hk] at hg
      rcases hg with hg | hg
      · subst hg
        rw [List.pairwise_append]
        exact ⟨hs (k', vs) (by simp), by simp,
          fun a ha b hb => by
            simp at hb
            subst hb
            exact hub (k', vs) (by simp) a ha⟩
      · exact hs g (by simp [hg])
    · simp [addToMonths, hk] at hg
      rcases hg with hg | hg
      · subst hg
        exact hs (k', vs) (by simp)
      · exact ih (fun g' hg' => hs g' (by simp [hg']))
          (fun g' hg' => hub g' (by simp [hg'])) g hg

/-- The keys after `addToMonths`: unchanged when present, appended when new. -/
theorem addToMonths_keys (ms : List (String × ChapterMap)) (k : String)
    (v : Nat × RecordInfo) :
    (addToMonths ms k v).map Prod.fst =
      (if k ∈ ms.map Prod.fst then ms.map Prod.fst else ms.map Prod.fst ++ [k]) := by
  induction ms with
  | nil => simp [addToMonths]
  | cons hd tl ih =>
    obtain ⟨k', vs⟩ := hd
    by_cases hk : k' = k
    · simp [addToMonths, hk]
    · have hkk : ¬(k = k') := fun hkk => hk hkk.symm
      by_cases hmem : k ∈ tl.map Prod.fst
      · simp [addToMonths, hk, hkk, ih, hmem]
      · simp [addToMonths, hk, hkk, ih, hmem]

/-- The grouping fold is key-consistent. -/
theorem foldl_groups_consistent (l : ChapterMap) (ms : List (String × ChapterMap))
    (h : ∀ g ∈ ms, ∀ p ∈ g.2, monthKeyOfDay p.1 = g.1) :
    ∀ g ∈ l.foldl (fun ms p => addToMonths ms (monthKeyOfDay p.1) p) ms,
      ∀ p ∈ g.2, monthKeyOfDay p.1 = g.1 := by
  induction l generalizing ms with
  | nil => simpa using h
  | cons v l ih =>
    rw [List.foldl_cons]
    exact ih _ (addToMonths_consistent ms _ v rfl h)

/-- The grouping fold keeps every group sorted ascending when fed an
ascending traversal. -/
theorem foldl_groups_sorted (l : ChapterMap) (ms : List (String × ChapterMap))
    (hl : List.Pairwise ascByDay l)
    (hs : ∀ g ∈ ms, List.Pairwise ascByDay g.2)
    (hcross : ∀ g ∈ ms, ∀ p ∈ g.2, ∀ q ∈ l, ascByDay p q) :
    ∀ g ∈ l.foldl (fun ms p => addToMonths ms (monthKeyOfDay p.1) p) ms,
      List.Pairwise ascByDay g.2 := by
  induction l generalizing ms with
  | nil => simpa using hs
  | cons v l ih =>
    rw [List.foldl_cons]
    refine ih _ (List.Pairwise.of_cons hl) ?_ ?_
    · exact addToMonths_sorted ms _ v hs
        (fun g hg p hp => hcross g hg p hp v (by simp))
    · intro g hg p hp q hq
      rcases addToMonths_mem ms _ v g hg p hp with ⟨g', hg', hp'⟩ | hp'
      · exact hcross g' hg' p hp' q (by simp [hq])
      · subst hp'
        exact (List.pairwise_cons.mp hl).1 q hq

/-- The grouping fold's key order is the order of first appearance. -/
theorem foldl_groups_keys (l : ChapterMap) (ms : List (String × ChapterMap)) :
    (l.foldl (fun ms p => addToMonths ms (monthKeyOfDay p.1) p) ms).map Prod.fst =
      (l.map (fun p => monthKeyOfDay p.1)).foldl
        (fun acc k => if k ∈ acc then acc else acc ++ [k]) (ms.map Prod.fst) := by
  induction l generalizing ms with
  | nil => rfl
  | cons v l ih =>
    rw [List.foldl_cons, List.map_cons, List.foldl_cons, ih, addToMonths_keys]

/-- C7: the regenerated listing groups chapters exactly by the month-and-year
of their calendar date, lists months in order of first appearance along the
ascending day-number traversal, keeps each group ascending by day number for
every insertion order of the index, and renders the placeholder section when
the index is empty. -/
theorem c7_listing_regeneration (index : PubIndex) :
    (∀ g ∈ monthGroups index.chapters, ∀ p ∈ g.2, monthKeyOfDay p.1 = g.1) ∧
    ((monthGroups index.chapters).map Prod.fst =
      keepFirsts ((sortedByDay index.chapters).map (fun p => monthKeyOfDay p.1))) ∧
    (∀ g ∈ monthGroups index.chapters, List.Pairwise ascByDay g.2) ∧
    (index.chapters = [] → chaptersListString index.chapters = emptyPlaceholder) := by
  refine ⟨?_, ?_, ?_, ?_⟩
  · exact foldl_groups_consistent _ [] (by simp)
  · exact foldl_groups_keys _ []
  · exact foldl_groups_sorted _ []
      (List.sorted_insertionSort ascByDay index.chapters) (by simp) (by simp)
  · intro h
    rw [h]
    rfl

/-- Witness for C7: applied to a concrete two-month index inserted out of
order, giving the month key of a concrete grouped chapter. -/
theorem c7_listing_regeneration_witness :
    monthKeyOfDay 32 = "February 2026" :=
  (c7_listing_regeneration
      ⟨[(32, ⟨"B", "February 01, 2026", "032.html", "", ""⟩),
        (1, ⟨"A", "January 01, 2026", "001.html", "", ""⟩)]⟩).1
    ("February 2026", [(32, ⟨"B", "February 01, 2026", "032.html", "", ""⟩)])
    (by decide)
    (32, ⟨"B", "February 01, 2026", "032.html", "", ""⟩)
    (by decide)

/-- A key-`k` element of `pyDictSet l k v` is exactly `(k, v)`. -/
theorem pyDictSet_mem_key {α β : Type} [DecidableEq α] (l : List (α × β)) (k : α)
    (v : β) : ∀ p ∈ pyDictSet l k v, p.1 = k → p = (k, v) := by
  intro p hp hpk
  unfold pyDictSet at hp
  by_cases h : l.any (fun p => p.1 = k)
  · rw [if_pos h] at hp
    rcases List.mem_map.mp hp with ⟨q, _, hq⟩
    by_cases hqk : q.1 = k
    · rw [if_pos hqk] at hq
      exact hq.symm
    · rw [if_neg hqk] at hq
      subst hq
      exact absurd hpk hqk
  · rw [if_neg h] at hp
    rcases List.mem_append.mp hp with hp | hp
    · exact absurd (List.any_eq_true.mpr ⟨p, hp, by simp [hpk]⟩) h
    · simpa using hp

/-- After `pyDictSet`, some element carries the key. -/
theorem pyDictSet_any_key {α β : Type} [DecidableEq α] (l : List (α × β)) (k : α)
    (v : β) : (pyDictSet l k v).any (fun p => p.1 = k) = true := by
  unfold pyDictSet
  by_cases h : l.any (fun p => p.1 = k)
  · rw [if_pos h]
    rcases List.any_eq_true.mp h with ⟨q, hq, hqk⟩
    refine List.any_eq_true.mpr ⟨(k, v), ?_, by simp⟩
    exact List.mem_map.mpr ⟨q, hq, by simp [of_decide_eq_true hqk]⟩
  · rw [if_neg h]
    exact List.any_eq_true.mpr ⟨(k, v), by simp, by simp⟩

/-- Python dict assignment is idempotent. -/
theorem pyDictSet_idem {α β : Type} [DecidableEq α] (l : List (α × β)) (k : α)
    (v : β) : pyDictSet (pyDictSet l k v) k v = pyDictSet l k v := by
  have hfix : ∀ p ∈ pyDictSet l k v, (if p.1 = k then (k, v) else p) = p := by
    intro p hp
    by_cases hpk : p.1 = k
    · rw [if_pos hpk, pyDictSet_mem_key l k v p hp hpk]
    · rw [if_neg hpk]
  have hmap : (pyDictSet l k v).map (fun p => if p.1 = k then (k, v) else p) =
      pyDictSet l k v := by
    conv_rhs => rw [← List.map_id (pyDictSet l k v)]
    exact List.map_congr_left hfix
  nth_rewrite 1 [pyDictSet]
  rw [if_pos (pyDictSet_any_key l k v), hmap]

/-- Overwriting an existing key is found by `lookup`. -/
theorem lookup_map_overwrite {α β : Type} [DecidableEq α] [BEq α] [LawfulBEq α]
    (l : List (α × β)) (k : α) (v : β) (h : l.any (fun p => p.1 = k) = true) :
    (l.map (fun p => if p.1 = k then (k, v) else p)).lookup k = some v := by
  induction l with
  | nil => simp at h
  | cons q tl ih =>
    by_cases hqk : q.1 = k
    · obtain ⟨a, b⟩ := q
      simp only at hqk
      subst hqk
      rw [List.map_cons, if_pos rfl, List.lookup]
      simp
    · rw [List.map_cons, if_neg hqk]
      have hne : (k == q.1) = false := by
        simp only [beq_eq_false_iff_ne, ne_eq]
        exact fun he => hqk he.symm
      rw [List.lookup, hne]
      apply ih
      simp only [List.any_cons, Bool.or_eq_true] at h
      rcases h with h | h
      · exact absurd (of_decide_eq_true h) hqk
      · exact h

/-- A freshly appended key is found by `lookup`. -/
theorem lookup_append_new {α β : Type} [DecidableEq α] [BEq α] [LawfulBEq α]
    (l : List (α × β)) (k : α) (v : β) (h : l.any (fun p => p.1 = k) = false) :
    (l ++ [(k, v)]).lookup k = some v := by
  induction l with
  | nil => simp [List.lookup]
  | cons q tl ih =>
    simp only [List.any_cons, Bool.or_eq_false_iff] at h
    have hqk : ¬(q.1 = k) := by
      intro he
      simp [he] at h
    have hne : (k == q.1) = false := by
      simp only [beq_eq_false_iff_ne, ne_eq]
      exact fun he => hqk he.symm
    rw [List.cons_append, List.lookup, hne]
    exact ih h.2

/-- `lookup` after Python dict assignment returns the assigned value. -/
theorem pyDictSet_lookup {α β : Type} [DecidableEq α] [BEq α] [LawfulBEq α]
    (l : List (α × β)) (k : α) (v : β) : (pyDictSet l k v).lookup k = some v := by
  unfold pyDictSet
  by_cases h : l.any (fun p => p.1 = k)
  · rw [if_pos h]
    exact lookup_map_overwrite l k v h
  · rw [if_neg h]
    exact lookup_append_new l k v (Bool.eq_false_iff.mpr h)

/-- `publish` in terms of the located manuscript: dry-run returns the
prepared chapter and leaves the state unchanged; a real run additionally
moves to `publishedState`. -/
theorem publish_eq (st : PubState) (day : Nat) (dry : Bool) :
    publish st day dry =
      (match find_manuscript_for_day st.files day with
      | Except.error e => Except.error e
      | Except.ok (_, (fm, body)) =>
          if dry then Except.ok (preparedChapter day fm body, st)
          else Except.ok (preparedChapter day fm body, publishedState st day fm body)) := by
  unfold publish
  cases find_manuscript_for_day st.files day with
  | error e => rfl
  | ok r =>
    obtain ⟨name, fm, body⟩ := r
    cases dry with
    | true => rfl
    | false => rfl

/-- Publishing over an already-published state changes nothing. -/
theorem publishedState_idem (st : PubState) (day : Nat) (fm : Frontmatter)
    (body : String) :
    publishedState (publishedState st day fm body) day fm body =
      publishedState st day fm body := by
  simp only [publishedState, dictInsert, dictInsertS, pyDictSet_idem]

/-- C2: publishing the same day twice from identical manuscript input yields
the same chapter and a byte-identical state (index, chapter page, listing
page and feed) as publishing it once; the listing page and feed of the
published state are pure recomputations from its index. -/
theorem c2_publish_idempotent (st : PubState) (day : Nat) (ch : Chapter)
    (st' : PubState) (h : publish st day false = Except.ok (ch, st')) :
    publish st' day false = Except.ok (ch, st') ∧
    st'.chaptersPageText = rebuild_chapters_page_text st'.index ∧
    st'.rssText = rebuild_rss_text st'.index ∧
    indexFileText st' = serializeIndex st'.index := by
  rw [publish_eq] at h
  cases hfm : find_manuscript_for_day st.files day with
  | error e =>
    rw [hfm] at h
    simp at h
  | ok r =>
    obtain ⟨name, fm, body⟩ := r
    rw [hfm] at h
    simp only [Bool.false_eq_true, if_false, Except.ok.injEq, Prod.mk.injEq] at h
    obtain ⟨hch, hst⟩ := h
    subst hch
    subst hst
    refine ⟨?_, rfl, rfl, rfl⟩
    rw [publish_eq]
    have hfiles : (publishedState st day fm body).files = st.files := rfl
    rw [hfiles, hfm]
    simp only [Bool.false_eq_true, if_false, Except.ok.injEq, Prod.mk.injEq,
      true_and, eq_self_iff_true]
    exact publishedState_idem st day fm body

/-- Witness for C2: republishing day 1 of the concrete fixture reproduces the
same state. -/
theorem c2_publish_idempotent_witness :
    publish sampleState' 1 false = Except.ok (sampleChapter, sampleState') :=
  (c2_publish_idempotent sampleState 1 sampleChapter sampleState' rfl).1

/-- C8: for a valid day number, dry-run performs the same lookup, parsing and
rendering — returning the identical prepared chapter (or the identical
error) — while leaving the whole state, hence the index, listing page and
feed bytes, unchanged. -/
theorem c8_dry_run_frame (st : PubState) (day : Nat) (h1 : 1 ≤ day)
    (h2 : day ≤ 365) :
    (∀ ch st', publish st day false = Except.ok (ch, st') →
      publish st day true = Except.ok (ch, st)) ∧
    (∀ e, publish st day false = Except.error e →
      publish st day true = Except.error e) := by
  constructor
  · intro ch st' h
    rw [publish_eq] at h ⊢
    cases hfm : find_manuscript_for_day st.files day with
    | error e =>
      rw [hfm] at h
      simp at h
    | ok r =>
      obtain ⟨name, fm, body⟩ := r
      rw [hfm] at h
      simp only [Bool.false_eq_true, if_false, Except.ok.injEq, Prod.mk.injEq] at h
      simp [h.1]
  · intro e h
    rw [publish_eq] at h ⊢
    cases hfm : find_manuscript_for_day st.files day with
    | error e' =>
      rw [hfm] at h
      exact h
    | ok r =>
      obtain ⟨name, fm, body⟩ := r
      rw [hfm] at h
      simp at h

/-- Witness for C8: a dry run on the concrete fixture returns the prepared
chapter and the unchanged state. -/
theorem c8_dry_run_frame_witness :
    publish sampleState 1 true = Except.ok (sampleChapter, sampleState) :=
  (c8_dry_run_frame sampleState 1 (by decide) (by decide)).1
    sampleChapter sampleState' rfl

/-- C3 counterexample: `save_index` is a single direct write, so interrupting
it partway (here after one character) leaves the index file holding neither
the old nor the new content — the write is not atomic from the caller's
perspective. -/
theorem c3_counterexample_partial_write :
    ((applyOpsInterrupted [("chapters.json", "OLD")] (save_index_ops ⟨[]⟩) 0 1).lookup
        "chapters.json" = some "\x7b") ∧
    ("\x7b" : String) ≠ "OLD" ∧
    ("\x7b" : String) ≠ serializeIndex ⟨[]⟩ := by
  decide

/-- C3 (amended): `save_index` issues exactly one direct write of the full
serialized index — no temporary file and no rename — and an interruption of
that write after `cut` characters leaves the index file holding just that
prefix of the new serialization (partially updated whenever `cut` falls
strictly inside it). -/
theorem c3_save_index_single_direct_write (idx : PubIndex)
    (fs : List (String × String)) (cut : Nat) :
    save_index_ops idx = [FsOp.write "chapters.json" (serializeIndex idx)] ∧
    (applyOpsInterrupted fs (save_index_ops idx) 0 cut).lookup "chapters.json" =
      some (String.mk ((serializeIndex idx).data.take cut)) := by
  refine ⟨rfl, ?_⟩
  show (dictInsertS fs "chapters.json"
      (String.mk ((serializeIndex idx).data.take cut))).lookup "chapters.json" = _
  exact pyDictSet_lookup fs "chapters.json" _

/-- The probe loop returns the first existing candidate with its content. -/
theorem probeCandidates_eq (files : ManuscriptStore) (cs : List String) :
    probeCandidates files cs =
      (cs.find? (fun c => (files.lookup c).isSome)).bind
        (fun c => (files.lookup c).map (fun v => (c, v))) := by
  induction cs with
  | nil => rfl
  | cons c cs ih =>
    cases h : files.lookup c with
    | some v =>
      rw [List.find?_cons_of_pos _ (by simp [h])]
      simp [probeCandidates, h]
    | none =>
      rw [List.find?_cons_of_neg _ (by simp [h])]
      simp only [probeCandidates, h]
      exact ih

/-- C9: manuscript lookup probes the ISO-date, zero-padded and bare-day
names in that fixed order and returns the first that exists; when none
exists it fails with the not-found error whose message contains every
candidate path attempted. -/
theorem c9_manuscript_lookup (files : ManuscriptStore) (day : Nat)
    (h1 : 1 ≤ day) (h2 : day ≤ 365) :
    manuscriptCandidates day =
      [isoFormat (date_for_day_number day) ++ ".md", pad3 day ++ ".md",
        toString day ++ ".md"] ∧
    (∀ c v, (manuscriptCandidates day).find? (fun c => (files.lookup c).isSome) = some c →
      files.lookup c = some v →
      find_manuscript_for_day files day = Except.ok (c, v)) ∧
    ((∀ c ∈ manuscriptCandidates day, files.lookup c = none) →
      find_manuscript_for_day files day = Except.error (manuscriptNotFoundMsg day) ∧
      ∀ c ∈ manuscriptCandidates day, ∃ pre post : List Char,
        (manuscriptNotFoundMsg day).data = pre ++ ("manuscript/" ++ c).data ++ post) := by
  refine ⟨rfl, ?_, ?_⟩
  · intro c v hfind hlook
    unfold find_manuscript_for_day
    rw [probeCandidates_eq, hfind]
    simp [hlook]
  · intro hnone
    have hfind : (manuscriptCandidates day).find?
        (fun c => (files.lookup c).isSome) = none := by
      rw [List.find?_eq_none]
      intro c hc
      simp [hnone c hc]
    constructor
    · unfold find_manuscript_for_day
      rw [probeCandidates_eq, hfind]
      rfl
    · intro c hc
      simp only [manuscriptCandidates, List.mem_cons, List.not_mem_nil, or_false] at hc
      rcases hc with hc | hc | hc
      · refine ⟨("No manuscript found for day " ++ toString day
            ++ ". Expected one of: ").data,
          (", manuscript/" ++ pad3 day ++ ".md, manuscript/" ++ toString day
            ++ ".md").data, ?_⟩
        subst hc
        simp [manuscriptNotFoundMsg, manuscriptCandidates, pyJoin,
          String.data_append, List.append_assoc]
      · refine ⟨("No manuscript found for day " ++ toString day
            ++ ". Expected one of: manuscript/"
            ++ isoFormat (date_for_day_number day) ++ ".md, ").data,
          (", manuscript/" ++ toString day ++ ".md").data, ?_⟩
        subst hc
        simp [manuscriptNotFoundMsg, manuscriptCandidates, pyJoin,
          String.data_append, List.append_assoc]
      · refine ⟨("No manuscript found for day " ++ toString day
            ++ ". Expected one of: manuscript/"
            ++ isoFormat (date_for_day_number day) ++ ".md, manuscript/"
            ++ pad3 day ++ ".md, ").data, [], ?_⟩
        subst hc
        simp [manuscriptNotFoundMsg, manuscriptCandidates, pyJoin,
          String.data_append, List.append_assoc]

/-- Witness for C9: day 5 of a store holding only the zero-padded name is
found under that second candidate. -/
theorem c9_manuscript_lookup_witness :
    find_manuscript_for_day [("005.md", ([], "x"))] 5 =
      Except.ok ("005.md", ([], "x")) :=
  (c9_manuscript_lookup [("005.md", ([], "x"))] 5 (by decide) (by decide)).2.1
    "005.md" ([], "x") (by decide) (by decide)
